import Mathlib

/-!
Shallow embedding of `src/check-and-notify.py` (hmpps-tech-docs-monitor).

The program fetches JSON document inventories, selects documents whose
`reviewAgain` date is strictly in the past, sorts them by staleness,
truncates to a configured maximum, renders a Slack message from a JSON
template and posts it to a webhook.

Parsed JSON values are modelled by the inductive `Json`; Python's `None`
is `Json.null` (note `dict.get` returns `None` both for a missing key and
for a key stored with value `None`, which `Json.null` reproduces exactly).
Python truthiness is `truthy`.  Exceptions that the source code does not
catch are modelled by `Except.error`; caught exceptions follow the source's
`except` clauses.  Dates are day ordinals (`toOrdinal`, the proleptic
Gregorian ordinal used by `datetime`); "now" is passed as the ordinal of
today's date, which gives exactly `(datetime.now() - d).days` for any
parsed midnight date `d`, since the fractional time of day is floored away.
-/

set_option maxHeartbeats 1000000

namespace TechDocs

/-- Model of a parsed JSON value (the result of `json.load` / `response.json()`). -/
inductive Json where
  | null : Json
  | bool : Bool → Json
  | num : Int → Json
  | str : String → Json
  | arr : List Json → Json
  | obj : List (String × Json) → Json
deriving Repr

mutual
/-- Decidable equality for `Json`, needed so concrete runs can be settled by `decide`. -/
def jsonBeq : Json → Json → Bool
  | .null, .null => true
  | .bool a, .bool b => a == b
  | .num a, .num b => a == b
  | .str a, .str b => a == b
  | .arr a, .arr b => jsonBeqList a b
  | .obj a, .obj b => jsonBeqObj a b
  | _, _ => false
/-- Element-wise `jsonBeq` on arrays. -/
def jsonBeqList : List Json → List Json → Bool
  | [], [] => true
  | a :: as', b :: bs' => jsonBeq a b && jsonBeqList as' bs'
  | _, _ => false
/-- Field-wise `jsonBeq` on objects. -/
def jsonBeqObj : List (String × Json) → List (String × Json) → Bool
  | [], [] => true
  | (ka, va) :: as', (kb, vb) :: bs' => ka == kb && jsonBeq va vb && jsonBeqObj as' bs'
  | _, _ => false
end

mutual
theorem jsonBeq_refl : ∀ j : Json, jsonBeq j j = true
  | .null => rfl
  | .bool b => by simp [jsonBeq]
  | .num n => by simp [jsonBeq]
  | .str s => by simp [jsonBeq]
  | .arr xs => by simp [jsonBeq, jsonBeqList_refl xs]
  | .obj fs => by simp [jsonBeq, jsonBeqObj_refl fs]
theorem jsonBeqList_refl : ∀ l : List Json, jsonBeqList l l = true
  | [] => rfl
  | x :: xs => by simp [jsonBeqList, jsonBeq_refl x, jsonBeqList_refl xs]
theorem jsonBeqObj_refl : ∀ l : List (String × Json), jsonBeqObj l l = true
  | [] => rfl
  | (k, v) :: xs => by simp [jsonBeqObj, jsonBeq_refl v, jsonBeqObj_refl xs]
end

mutual
theorem jsonBeq_eq : ∀ a b : Json, jsonBeq a b = true → a = b
  | .null, .null, _ => rfl
  | .bool a, .bool b, h => by simp [jsonBeq] at h; simp [h]
  | .num a, .num b, h => by simp [jsonBeq] at h; simp [h]
  | .str a, .str b, h => by simp [jsonBeq] at h; simp [h]
  | .arr a, .arr b, h => by
      simp only [jsonBeq] at h
      exact congrArg Json.arr (jsonBeqList_eq a b h)
  | .obj a, .obj b, h => by
      simp only [jsonBeq] at h
      exact congrArg Json.obj (jsonBeqObj_eq a b h)
  | .null, .bool _, h => by simp [jsonBeq] at h
  | .null, .num _, h => by simp [jsonBeq] at h
  | .null, .str _, h => by simp [jsonBeq] at h
  | .null, .arr _, h => by simp [jsonBeq] at h
  | .null, .obj _, h => by simp [jsonBeq] at h
  | .bool _, .null, h => by simp [jsonBeq] at h
  | .bool _, .num _, h => by simp [jsonBeq] at h
  | .bool _, .str _, h => by simp [jsonBeq] at h
  | .bool _, .arr _, h => by simp [jsonBeq] at h
  | .bool _, .obj _, h => by simp [jsonBeq] at h
  | .num _, .null, h => by simp [jsonBeq] at h
  | .num _, .bool _, h => by simp [jsonBeq] at h
  | .num _, .str _, h => by simp [jsonBeq] at h
  | .num _, .arr _, h => by simp [jsonBeq] at h
  | .num _, .obj _, h => by simp [jsonBeq] at h
  | .str _, .null, h => by simp [jsonBeq] at h
  | .str _, .bool _, h => by simp [jsonBeq] at h
  | .str _, .num _, h => by simp [jsonBeq] at h
  | .str _, .arr _, h => by simp [jsonBeq] at h
  | .str _, .obj _, h => by simp [jsonBeq] at h
  | .arr _, .null, h => by simp [jsonBeq] at h
  | .arr _, .bool _, h => by simp [jsonBeq] at h
  | .arr _, .num _, h => by simp [jsonBeq] at h
  | .arr _, .str _, h => by simp [jsonBeq] at h
  | .arr _, .obj _, h => by simp [jsonBeq] at h
  | .obj _, .null, h => by simp [jsonBeq] at h
  | .obj _, .bool _, h => by simp [jsonBeq] at h
  | .obj _, .num _, h => by simp [jsonBeq] at h
  | .obj _, .str _, h => by simp [jsonBeq] at h
  | .obj _, .arr _, h => by simp [jsonBeq] at h
theorem jsonBeqList_eq : ∀ a b : List Json, jsonBeqList a b = true → a = b
  | [], [], _ => rfl
  | [], _ :: _, h => by simp [jsonBeqList] at h
  | _ :: _, [], h => by simp [jsonBeqList] at h
  | x :: xs, y :: ys, h => by
      simp only [jsonBeqList, Bool.and_eq_true] at h
      rw [jsonBeq_eq x y h.1, jsonBeqList_eq xs ys h.2]
theorem jsonBeqObj_eq : ∀ a b : List (String × Json), jsonBeqObj a b = true → a = b
  | [], [], _ => rfl
  | [], _ :: _, h => by simp [jsonBeqObj] at h
  | _ :: _, [], h => by simp [jsonBeqObj] at h
  | (ka, va) :: xs, (kb, vb) :: ys, h => by
      simp only [jsonBeqObj, Bool.and_eq_true, beq_iff_eq] at h
      rw [h.1.1, jsonBeq_eq va vb h.1.2, jsonBeqObj_eq xs ys h.2]
end

instance : DecidableEq Json := fun a b =>
  if h : jsonBeq a b = true then .isTrue (jsonBeq_eq a b h)
  else .isFalse (fun he => h (he ▸ jsonBeq_refl a))

/-- Python truthiness of a parsed JSON value (`if data:` and the walrus tests
in the source): `None`, `False`, `0`, `""`, `[]` and `{}` are falsy. -/
def truthy : Json → Bool
  | .null => false
  | .bool b => b
  | .num n => n != 0
  | .str s => s != ""
  | .arr xs => !xs.isEmpty
  | .obj fs => !fs.isEmpty

/-- First-occurrence lookup in a JSON object, i.e. Python `d[k]` returning
`none` where Python raises `KeyError`. -/
def lookupKey : List (String × Json) → String → Option Json
  | [], _ => none
  | (k', v) :: rest, k => if k' = k then some v else lookupKey rest k

/-- Python `d.get(k)`: a missing key yields `None` (`Json.null`). -/
def pyGet (fs : List (String × Json)) (k : String) : Json :=
  (lookupKey fs k).getD .null

/-- Python `d[k] = v` on a dict: replace the value of an existing key in
place, or append a new key at the end (insertion order). -/
def setKey : List (String × Json) → String → Json → List (String × Json)
  | [], k, v => [(k, v)]
  | (k', v') :: rest, k, v =>
      if k' = k then (k, v) :: rest else (k', v') :: setKey rest k v

/-- Python iteration `for x in v` over a parsed JSON value: lists yield their
elements, strings yield one-character strings, dicts yield their keys, and
every other value raises an uncaught `TypeError`. -/
def pyIterate : Json → Except String (List Json)
  | .arr xs => .ok xs
  | .str s => .ok (s.toList.map (fun c => Json.str (String.mk [c])))
  | .obj fs => .ok (fs.map (fun kv => Json.str kv.1))
  | _ => .error "TypeError: object is not iterable"

/-- A calendar date as produced by `datetime.strptime(s, \x27%Y-%m-%d\x27)`. -/
structure Date where
  year : Nat
  month : Nat
  day : Nat
deriving Repr, DecidableEq

/-- Leap-year test of the Gregorian calendar (as used by `datetime`). -/
def isLeapYear (y : Nat) : Bool :=
  y % 4 == 0 && (y % 100 != 0 || y % 400 == 0)

/-- Number of days in a month of a given year (as used by `datetime`). -/
def daysInMonth (y m : Nat) : Nat :=
  if m == 2 then (if isLeapYear y then 29 else 28)
  else if m == 4 || m == 6 || m == 9 || m == 11 then 30 else 31

/-- Digit-string to number, for the numeric fields matched by `strptime`. -/
def digitsToNat (cs : List Char) : Nat :=
  cs.foldl (fun a c => a * 10 + (c.toNat - 48)) 0

/-- Check that every character is an ASCII digit. -/
def allDigits (cs : List Char) : Bool :=
  cs.all (fun c => c.isDigit)

/-- Split a character list at every occurrence of a separator, like Python's
`str.split(sep)`; the empty input gives one empty part. -/
def splitOnChar (sep : Char) : List Char → List (List Char)
  | [] => [[]]
  | c :: rest =>
    match splitOnChar sep rest with
    | [] => [[]]
    | g :: gs => if c = sep then [] :: g :: gs else (c :: g) :: gs

/-- Model of `datetime.strptime(s, \x27%Y-%m-%d\x27)`: the whole string must be
a four-digit year, a dash, a one-or-two-digit month in 1..12, a dash, and a
one-or-two-digit day valid for that month; `datetime` additionally requires
year ≥ 1.  Any other input raises (`ValueError`), modelled as `none`. -/
def parseDate (s : String) : Option Date :=
  match splitOnChar '-' s.toList with
  | [yc, mc, dc] =>
    if yc.length == 4 && allDigits yc
        && (mc.length == 1 || mc.length == 2) && allDigits mc
        && (dc.length == 1 || dc.length == 2) && allDigits dc then
      let y := digitsToNat yc
      let m := digitsToNat mc
      let d := digitsToNat dc
      if 1 ≤ y && 1 ≤ m && m ≤ 12 && 1 ≤ d && d ≤ daysInMonth y m then
        some ⟨y, m, d⟩
      else none
    else none
  | _ => none

/-- Days before the first of January of year `y` (proleptic Gregorian). -/
def daysBeforeYear (y : Nat) : Nat :=
  (y - 1) * 365 + (y - 1) / 4 - (y - 1) / 100 + (y - 1) / 400

/-- Days in year `y` before the first of month `m`. -/
def daysBeforeMonth (y m : Nat) : Nat :=
  (List.range (m - 1)).foldl (fun acc i => acc + daysInMonth y (i + 1)) 0

/-- The `datetime.date.toordinal` day number of a date; `0001-01-01` is day 1.
Subtracting two `datetime` values and taking `.days` floors the fractional
part, so for a date `d` at midnight and "now" on ordinal day `n` at any time
of day, `(now - d).days = n - toOrdinal d`. -/
def toOrdinal (d : Date) : Nat :=
  daysBeforeYear d.year + daysBeforeMonth d.year d.month + d.day

/-- One element of the list built by `get_out_of_date_docs`: the Python dict
`{title, url, days_overdue}` appended for a qualifying record. -/
structure OverdueEntry where
  title : Json
  url : Json
  days_overdue : Int
deriving Repr, DecidableEq

/-- The body of the `for doc in doc_list` loop of `get_out_of_date_docs` for
one record that is a dict: returns the appended entry, or `none` when the
record is skipped (missing/falsy `reviewAgain` or `url`, `strptime` failure
— including a non-string `reviewAgain`, caught by `except Exception` — or
`days_overdue ≤ 0`).  `now` is the ordinal of today's date. -/
def docEntry (now : Int) (doc : List (String × Json)) : Option OverdueEntry :=
  let title := pyGet doc "title"
  let url := pyGet doc "url"
  let reviewAgainStr := pyGet doc "reviewAgain"
  if truthy reviewAgainStr && truthy url then
    match reviewAgainStr with
    | .str s =>
      match parseDate s with
      | some d =>
        let days : Int := now - (toOrdinal d : Int)
        if days > 0 then some ⟨title, url, days⟩ else none
      | none => none
    | _ => none
  else none

/-- The whole `for doc in doc_list` loop over the already-iterated elements:
each element must be a dict (otherwise `doc.get` raises an uncaught
`AttributeError`); qualifying entries are collected in input order. -/
def collectEntries (now : Int) : List Json → Except String (List OverdueEntry)
  | [] => .ok []
  | j :: rest =>
    match j with
    | .obj fs =>
      match collectEntries now rest with
      | .ok tail =>
        match docEntry now fs with
        | some e => .ok (e :: tail)
        | none => .ok tail
      | .error e => .error e
    | _ => .error "AttributeError: object has no attribute get"

/-- Stable descending insertion for `days_overdue`: the new element goes in
front of the first element it is greater than or equal to, so earlier input
elements precede later ones among equal keys. -/
def insertDesc (x : OverdueEntry) : List OverdueEntry → List OverdueEntry
  | [] => [x]
  | y :: ys =>
      if y.days_overdue ≤ x.days_overdue then x :: y :: ys
      else y :: insertDesc x ys

/-- Model of `list.sort(key=lambda x: x[\x27days_overdue\x27], reverse=True)`:
a stable sort into non-increasing `days_overdue` order (CPython's sort is
stable, and `reverse=True` keeps equal-key elements in input order). -/
def sortDesc : List OverdueEntry → List OverdueEntry
  | [] => []
  | x :: xs => insertDesc x (sortDesc xs)

/-- Model of the slice `lst[: int(max_docs) if int(max_docs) > 0 else len(lst)]`. -/
def truncateDocs (maxDocs : Int) (l : List OverdueEntry) : List OverdueEntry :=
  l.take (if 0 < maxDocs then maxDocs.toNat else l.length)

/-- Model of `get_out_of_date_docs(doc_list)`: iterate the parsed JSON value,
build the qualifying entries, sort them by `days_overdue` descending and
truncate to `max_docs` when it is positive.  `Except.error` models the
uncaught exceptions the source can raise on unexpected shapes. -/
def get_out_of_date_docs (now : Int) (maxDocs : Int) (docList : Json) :
    Except String (List OverdueEntry) :=
  match pyIterate docList with
  | .ok items =>
    match collectEntries now items with
    | .ok entries => .ok (truncateDocs maxDocs (sortDesc entries))
    | .error e => .error e
  | .error e => .error e

mutual
/-- Python `repr` of a parsed JSON value, as used by `str()` on containers. -/
def pyRepr : Json → String
  | .null => "None"
  | .bool true => "True"
  | .bool false => "False"
  | .num n => toString n
  | .str s => "\x27" ++ s ++ "\x27"
  | .arr xs => "[" ++ pyReprSeq xs ++ "]"
  | .obj fs => "\x7b" ++ pyReprFields fs ++ "\x7d"
/-- Comma-joined `pyRepr` of list elements. -/
def pyReprSeq : List Json → String
  | [] => ""
  | [x] => pyRepr x
  | x :: y :: rest => pyRepr x ++ ", " ++ pyReprSeq (y :: rest)
/-- Comma-joined `pyRepr` of dict entries. -/
def pyReprFields : List (String × Json) → String
  | [] => ""
  | [(k, v)] => "\x27" ++ k ++ "\x27: " ++ pyRepr v
  | (k, v) :: f :: rest => "\x27" ++ k ++ "\x27: " ++ pyRepr v ++ ", " ++ pyReprFields (f :: rest)
end

/-- Python `str` of a parsed JSON value, as interpolated by the f-strings of
`build_slack_message` (`str` of a string is itself, of `None` is `None`,
of containers is their `repr`). -/
def pyStr : Json → String
  | .str s => s
  | j => pyRepr j

/-- Characters allowed in a URL scheme by `urllib.parse`. -/
def isSchemeChar (c : Char) : Bool :=
  c.isAlphanum || c == '+' || c == '-' || c == '.'

/-- Split a character list at the first colon, returning the parts before and
after it when one exists. -/
def splitAtColon : List Char → Option (List Char × List Char)
  | [] => none
  | c :: rest =>
    if c = ':' then some ([], rest)
    else
      match splitAtColon rest with
      | some (a, b) => some (c :: a, b)
      | none => none

/-- Model of the scheme detection of `urllib.parse.urlparse`: a nonempty
prefix before the first colon, starting with a letter and made of scheme
characters, is the (lowercased) scheme; otherwise the scheme is empty and
the whole string remains. -/
def splitScheme (s : String) : String × String :=
  match splitAtColon s.toList with
  | some (before, after) =>
    match before with
    | [] => ("", s)
    | c0 :: _ =>
      if c0.isAlpha && before.all isSchemeChar then
        (String.mk (before.map Char.toLower), String.mk after)
      else ("", s)
  | none => ("", s)

/-- Model of the netloc extraction of `urllib.parse.urlparse`: present only
after a leading `//`, ending at the first of `/`, `?` or `#`. -/
def netlocOf (rest : String) : String :=
  match rest.toList with
  | '/' :: '/' :: tail =>
    String.mk (tail.takeWhile (fun c => c != '/' && c != '?' && c != '#'))
  | _ => ""

/-- Model of `urlparse(pages_url)` restricted to the `scheme` and `netloc`
attributes the source reads; calling it on a non-string raises. -/
def pyUrlparse : Json → Except String (String × String)
  | .str s =>
    let (scheme, rest) := splitScheme s
    .ok (scheme, netlocOf rest)
  | _ => .error "AttributeError: urlparse expects a string"

/-- The `base_url` f-string of `build_slack_message`. -/
def baseUrlOf (pr : String × String) : String :=
  pr.1 ++ "://" ++ pr.2 ++ "/"

/-- The `header_text` f-string of `build_slack_message`. -/
def headerText (count : Nat) : String :=
  ":rocco-docco-quokka: Hello. :paw_prints: This is Rocco, your friendly docco quokka. I\x27ve found "
    ++ toString count ++ " page" ++ (if count != 1 then "s" else "")
    ++ " overdue for review."

/-- The `list_heading_text` f-string of `build_slack_message`; note it is fed
`len(overdue_docs)` for the list the function was given. -/
def listHeadingText (maxDocsInt : Int) (count : Nat) : String :=
  "Here " ++ (if maxDocsInt == 0 || (count : Int) ≤ maxDocsInt then
    "is the full list:"
  else
    "are the top " ++ toString maxDocsInt ++ " oldest:")

/-- One line of `list_text` (the source's leading characters reproduce the
mis-encoded bullet glyph of the Python literal). -/
def listLine (baseUrl : String) (e : OverdueEntry) : String :=
  "â€¢ <" ++ baseUrl ++ pyStr e.url ++ "|" ++ pyStr e.title ++ "> ("
    ++ toString e.days_overdue ++ " day"
    ++ (if e.days_overdue != 1 then "s" else "") ++ " ago)\n"

/-- The `list_text` accumulation loop of `build_slack_message`; `urlparse`
is re-evaluated inside the loop, so a non-string `pages_url` raises only
when the document list is nonempty. -/
def buildListTextAux (pagesUrl : Json) (acc : String) :
    List OverdueEntry → Except String String
  | [] => .ok acc
  | e :: rest =>
    match pyUrlparse pagesUrl with
    | .ok pr => buildListTextAux pagesUrl (acc ++ listLine (baseUrlOf pr) e) rest
    | .error er => .error er

/-- The full `list_text` of `build_slack_message`, starting from `\x27\x27`. -/
def buildListText (pagesUrl : Json) (docs : List OverdueEntry) : Except String String :=
  buildListTextAux pagesUrl "" docs

/-- Python list-index normalisation: negative indices count from the end;
out-of-range indices raise `IndexError` (modelled as `none`). -/
def normIdx (i : Int) (n : Nat) : Option Nat :=
  let j := if i < 0 then i + n else i
  if 0 ≤ j && j < (n : Int) then some j.toNat else none

/-- Model of one statement `template[\x27blocks\x27][idx][\x27text\x27][\x27text\x27] = v`:
it succeeds only when `template` is a dict whose `blocks` value is a list,
`idx` is in range, and that element is a dict whose `text` value is a dict;
any other shape raises (caught by the source's `try`, modelled as `none`). -/
def setTextAt (t : Json) (idx : Int) (v : String) : Option Json :=
  match t with
  | .obj fs =>
    match lookupKey fs "blocks" with
    | some (.arr blocks) =>
      match normIdx idx blocks.length with
      | some i =>
        match blocks[i]? with
        | some (.obj bf) =>
          match lookupKey bf "text" with
          | some (.obj tf) =>
            some (.obj (setKey fs "blocks" (.arr (blocks.set i
              (.obj (setKey bf "text" (.obj (setKey tf "text" (.str v)))))))))
          | _ => none
        | _ => none
      | none => none
    | _ => none
  | _ => none

/-- Model of `build_slack_message(overdue_docs, pages_url)`, taking the
already-loaded template (`get_json(slack_template_filename)`): a falsy
template or a failing block assignment yields `None` (`.ok none`), while a
non-string `pages_url` with a nonempty list raises (`.error`).  The three
assignments are applied in sequence to the evolving document, so for a
two-block template the third write lands on block 0 again. -/
def build_slack_message (maxDocsInt : Int) (template : Json)
    (overdueDocs : List OverdueEntry) (pagesUrl : Json) :
    Except String (Option Json) :=
  if truthy template then
    let headerT := headerText overdueDocs.length
    let listHeadingT := listHeadingText maxDocsInt overdueDocs.length
    match buildListText pagesUrl overdueDocs with
    | .ok listT =>
      match setTextAt template 0 headerT with
      | some t1 =>
        match setTextAt t1 1 listHeadingT with
        | some t2 =>
          match setTextAt t2 (-2) listT with
          | some t3 => .ok (some t3)
          | none => .ok none
        | none => .ok none
      | none => .ok none
    | .error e => .error e
  else .ok none

/-- Read `t[\x27blocks\x27][idx][\x27text\x27][\x27text\x27]` when it is a string
(used to state what a built message displays at a block). -/
def jTextAt (t : Json) (idx : Int) : Option String :=
  match t with
  | .obj fs =>
    match lookupKey fs "blocks" with
    | some (.arr blocks) =>
      match normIdx idx blocks.length with
      | some i =>
        match blocks[i]? with
        | some (.obj bf) =>
          match lookupKey bf "text" with
          | some (.obj tf) =>
            match lookupKey tf "text" with
            | some (.str s) => some s
            | _ => none
          | _ => none
        | _ => none
      | none => none
    | _ => none
  | _ => none

/-- Outcome of one HTTP call: an exception raised by `requests`, or a
response with a status code and (for GET) a body whose JSON parse either
succeeds or raises `json.JSONDecodeError`. -/
inductive HttpResult where
  | exn : String → HttpResult
  | resp : Nat → Except String Json → HttpResult

/-- Model of `get_doc_list(url)` over the outcome of `requests.get`: `None`
on a transport exception, a non-200 status, a JSON parse failure, or falsy
parsed data; otherwise the parsed payload unchanged. -/
def get_doc_list (r : HttpResult) : Option Json :=
  match r with
  | .exn _ => none
  | .resp status body =>
    if status == 200 then
      match body with
      | .ok data => if truthy data then some data else none
      | .error _ => none
    else none

/-- Model of `get_json(filename)` over the outcome of `json.load`: the parsed
value, or the Python empty list `[]` on `FileNotFoundError`/`JSONDecodeError`. -/
def get_json (r : Except String Json) : Json :=
  match r with
  | .ok j => j
  | .error _ => .arr []

/-- Model of `slack_notify(slack_message)` over the outcome of
`requests.post`: true exactly on a 200 response. -/
def slack_notify (postResult : HttpResult) : Bool :=
  match postResult with
  | .exn _ => false
  | .resp status _ => status == 200

/-- ASCII whitespace stripped by Python `int()` around the literal. -/
def isPySpace (c : Char) : Bool :=
  c == ' ' || c == '\t' || c == '\n' || c == '\r'

/-- Strip leading and trailing whitespace from a character list. -/
def trimChars (cs : List Char) : List Char :=
  ((cs.dropWhile isPySpace).reverse.dropWhile isPySpace).reverse

/-- Model of Python `int(s)` on a string: optional surrounding whitespace,
an optional sign, then digits with single underscores allowed between
digit groups; anything else raises `ValueError`. -/
def pyInt (s : String) : Option Int :=
  let t := trimChars s.toList
  let signAndDigits : Int × List Char :=
    match t with
    | '+' :: r => (1, r)
    | '-' :: r => (-1, r)
    | r => (1, r)
  let parts := splitOnChar '_' signAndDigits.2
  if parts.all (fun p => !p.isEmpty && allDigits p) then
    some (signAndDigits.1 *
      (digitsToNat (parts.foldl (fun a p => a ++ p) []) : Int))
  else none

/-- The process environment and external world of one run: the `MAX_DOCS`
variable (absent means the integer default 10), the outcomes of loading the
page-list and template files, the webhook configuration, the outcome of
`requests.get` per inventory URL, the outcome of `requests.post` per
message, and today's ordinal date. -/
structure Env where
  maxDocsEnv : Option String
  pageListFile : Except String Json
  templateFile : Except String Json
  webhookUrl : String
  fetch : Json → HttpResult
  post : Json → HttpResult
  now : Int

/-- The startup validation `int(max_docs)` with `os.getenv(\x27MAX_DOCS\x27, 10)`:
an unset variable is the integer 10, a set one must parse as an integer. -/
def parsedMaxDocs (env : Env) : Option Int :=
  match env.maxDocsEnv with
  | none => some 10
  | some s => pyInt s

/-- The body of `main`'s `for pages_url in page_list[\x27pages\x27]` loop for one
URL: fetch, select, and — only when the selection is nonempty (walrus
truthiness) and a webhook URL is configured — build and POST the message.
Returns the attempted POST (the URL and message) when one occurs, `none`
when the URL is skipped at any guard, and `.error` when an uncaught
exception escapes the loop body. -/
def processUrl (env : Env) (maxDocsInt : Int) (pagesUrl : Json) :
    Except String (Option (Json × Json)) :=
  match get_doc_list (env.fetch pagesUrl) with
  | none => .ok none
  | some docList =>
    match get_out_of_date_docs env.now maxDocsInt docList with
    | .error e => .error e
    | .ok overdueDocs =>
      if overdueDocs.isEmpty then .ok none
      else if env.webhookUrl == "" then .ok none
      else
        match build_slack_message maxDocsInt (get_json env.templateFile)
            overdueDocs pagesUrl with
        | .error e => .error e
        | .ok none => .ok none
        | .ok (some msg) =>
          let _ := slack_notify (env.post msg)
          .ok (some (pagesUrl, msg))

/-- Process the inventory URLs in order, recording the POSTs attempted, and
stopping with the exception when a loop body raises (POSTs already made are
kept: they happened before the crash). -/
def runUrls (env : Env) (maxDocsInt : Int) :
    List Json → List (Json × Json) × Option String
  | [] => ([], none)
  | u :: rest =>
    match processUrl env maxDocsInt u with
    | .ok (some p) =>
      let r := runUrls env maxDocsInt rest
      (p :: r.1, r.2)
    | .ok none => runUrls env maxDocsInt rest
    | .error e => ([], some e)

/-- Model of `main()`: load the page list, require a dict with a `pages`
key (else only a warning), iterate the pages value and process each URL.
The result is the list of attempted webhook POSTs and the uncaught
exception, if one terminated the loop. -/
def mainRun (env : Env) (maxDocsInt : Int) :
    List (Json × Json) × Option String :=
  match get_json env.pageListFile with
  | .obj fs =>
    match lookupKey fs "pages" with
    | some pagesVal =>
      match pyIterate pagesVal with
      | .ok urls => runUrls env maxDocsInt urls
      | .error e => ([], some e)
    | none => ([], none)
  | _ => ([], none)

/-- The process exit status: 1 from `sys.exit(1)` when `MAX_DOCS` does not
parse as an integer, 1 when an uncaught exception terminates `main` (a
Python traceback exits with status 1), and 0 otherwise. -/
def runProcess (env : Env) : Nat :=
  match parsedMaxDocs env with
  | none => 1
  | some n =>
    match (mainRun env n).2 with
    | none => 0
    | some _ => 1

/-- Modelled from the claim's words, not from the source: a parsed JSON
value that is empty in the ordinary sense (it has no content).  Used to
compare the claim's "empty" with the source's Python-falsiness test, which
additionally treats `0` and `False` as empty. -/
def specEmptyJson : Json → Bool
  | .null => true
  | .str "" => true
  | .arr [] => true
  | .obj [] => true
  | _ => false

theorem lookupKey_setKey_self (fs : List (String × Json)) (k : String) (v : Json) :
    lookupKey (setKey fs k v) k = some v := by
  induction fs with
  | nil => simp [setKey, lookupKey]
  | cons kv rest ih =>
    obtain ⟨k', v'⟩ := kv
    by_cases h : k' = k
    · simp [setKey, lookupKey, h]
    · simp [setKey, lookupKey, h, ih]

theorem lookupKey_setKey_ne (fs : List (String × Json)) (k k' : String) (v : Json)
    (h : k' ≠ k) : lookupKey (setKey fs k v) k' = lookupKey fs k' := by
  induction fs with
  | nil => simp [setKey, lookupKey, Ne.symm h]
  | cons kv rest ih =>
    obtain ⟨k0, v0⟩ := kv
    by_cases h0 : k0 = k
    · subst h0
      simp [setKey, lookupKey, Ne.symm h]
    · simp only [setKey, if_neg h0, lookupKey]
      by_cases h1 : k0 = k'
      · simp [h1]
      · simp [h1, ih]

theorem setKey_setKey (fs : List (String × Json)) (k : String) (v v' : Json) :
    setKey (setKey fs k v) k v' = setKey fs k v' := by
  induction fs with
  | nil => simp [setKey]
  | cons kv rest ih =>
    obtain ⟨k0, v0⟩ := kv
    by_cases h0 : k0 = k
    · simp [setKey, h0]
    · simp [setKey, h0, ih]

theorem mem_insertDesc (x a : OverdueEntry) (l : List OverdueEntry) :
    a ∈ insertDesc x l ↔ a = x ∨ a ∈ l := by
  induction l with
  | nil => simp [insertDesc]
  | cons y ys ih =>
    by_cases h : y.days_overdue ≤ x.days_overdue
    · simp [insertDesc, h]
    · simp only [insertDesc, if_neg h, List.mem_cons, ih]
      tauto

theorem pairwise_insertDesc (x : OverdueEntry) (l : List OverdueEntry)
    (h : l.Pairwise (fun a b => b.days_overdue ≤ a.days_overdue)) :
    (insertDesc x l).Pairwise (fun a b => b.days_overdue ≤ a.days_overdue) := by
  induction l with
  | nil => simp [insertDesc]
  | cons y ys ih =>
    rcases List.pairwise_cons.mp h with ⟨hy, hys⟩
    by_cases hle : y.days_overdue ≤ x.days_overdue
    · simp only [insertDesc, if_pos hle]
      refine List.pairwise_cons.mpr ⟨?_, h⟩
      intro z hz
      rcases List.mem_cons.mp hz with hz | hz
      · exact hz ▸ hle
      · exact le_trans (hy z hz) hle
    · simp only [insertDesc, if_neg hle]
      refine List.pairwise_cons.mpr ⟨?_, ih hys⟩
      intro z hz
      rcases (mem_insertDesc x z ys).mp hz with hz | hz
      · exact hz ▸ le_of_lt (lt_of_not_le hle)
      · exact hy z hz

theorem sortDesc_pairwise (l : List OverdueEntry) :
    (sortDesc l).Pairwise (fun a b => b.days_overdue ≤ a.days_overdue) := by
  induction l with
  | nil => simp [sortDesc]
  | cons x xs ih => exact pairwise_insertDesc x (sortDesc xs) ih

theorem filter_insertDesc (x : OverdueEntry) (l : List OverdueEntry) (k : Int) :
    (insertDesc x l).filter (fun e => e.days_overdue == k) =
      if x.days_overdue == k then x :: l.filter (fun e => e.days_overdue == k)
      else l.filter (fun e => e.days_overdue == k) := by
  induction l with
  | nil =>
    by_cases hx : x.days_overdue = k <;>
      simp [insertDesc, List.filter_cons, hx]
  | cons y ys ih =>
    by_cases hle : y.days_overdue ≤ x.days_overdue
    · simp only [insertDesc, if_pos hle]
      by_cases hx : x.days_overdue = k <;>
        simp [List.filter_cons, hx]
    · have hlt : x.days_overdue < y.days_overdue := lt_of_not_le hle
      simp only [insertDesc, if_neg hle]
      by_cases hx : x.days_overdue = k
      · have hy : ¬ y.days_overdue = k := by omega
        simp [List.filter_cons, hx, hy, ih]
      · by_cases hy : y.days_overdue = k <;>
          simp [List.filter_cons, hx, hy, ih]

theorem filter_sortDesc (l : List OverdueEntry) (k : Int) :
    (sortDesc l).filter (fun e => e.days_overdue == k) =
      l.filter (fun e => e.days_overdue == k) := by
  induction l with
  | nil => rfl
  | cons x xs ih =>
    by_cases hx : x.days_overdue = k <;>
      simp [sortDesc, filter_insertDesc, hx, List.filter_cons, ih]

theorem length_insertDesc (x : OverdueEntry) (l : List OverdueEntry) :
    (insertDesc x l).length = l.length + 1 := by
  induction l with
  | nil => rfl
  | cons y ys ih =>
    by_cases hle : y.days_overdue ≤ x.days_overdue <;>
      simp [insertDesc, hle, ih]

theorem length_sortDesc (l : List OverdueEntry) :
    (sortDesc l).length = l.length := by
  induction l with
  | nil => rfl
  | cons x xs ih => simp [sortDesc, length_insertDesc, ih]

theorem docEntry_eq_some (now : Int) (doc : List (String × Json)) (e : OverdueEntry) :
    docEntry now doc = some e ↔
      ∃ s d, pyGet doc "reviewAgain" = Json.str s ∧
        truthy (pyGet doc "url") = true ∧ parseDate s = some d ∧
        0 < now - (toOrdinal d : Int) ∧
        e = ⟨pyGet doc "title", pyGet doc "url", now - (toOrdinal d : Int)⟩ := by
  constructor
  · intro h
    simp only [docEntry] at h
    split at h
    case isTrue hcond =>
      rw [Bool.and_eq_true] at hcond
      rcases hcond with ⟨hra, hu⟩
      cases hs : pyGet doc "reviewAgain" with
      | str s =>
        rw [hs] at h
        dsimp only at h
        cases hp : parseDate s with
        | some d =>
          rw [hp] at h
          dsimp only at h
          split at h
          case isTrue hdays =>
            exact ⟨s, d, rfl, hu, hp, hdays, (Option.some_inj.mp h).symm⟩
          case isFalse => exact absurd h (by simp)
        | none => rw [hp] at h; exact absurd h (by simp)
      | null => rw [hs] at h; exact absurd h (by simp)
      | bool b => rw [hs] at h; exact absurd h (by simp)
      | num n => rw [hs] at h; exact absurd h (by simp)
      | arr xs => rw [hs] at h; exact absurd h (by simp)
      | obj fs => rw [hs] at h; exact absurd h (by simp)
    case isFalse => exact absurd h (by simp)
  · rintro ⟨s, d, hs, hu, hp, hdays, he⟩
    have hstruthy : truthy (Json.str s) = true := by
      cases hse : s == "" with
      | true =>
        rw [beq_iff_eq] at hse
        subst hse
        rw [show parseDate "" = none by decide] at hp
        exact absurd hp (by simp)
      | false => simp [truthy, bne, hse]
    simp only [docEntry, hs, hstruthy, hu, Bool.and_self, if_true, hp, if_pos hdays]
    rw [he]

theorem collectEntries_map_obj (now : Int) (docs : List (List (String × Json))) :
    collectEntries now (docs.map Json.obj) = .ok (docs.filterMap (docEntry now)) := by
  induction docs with
  | nil => rfl
  | cons doc rest ih =>
    simp only [List.map_cons, collectEntries, ih, List.filterMap_cons]
    cases docEntry now doc <;> simp

/-- A concrete document record used to exercise the selector: a present but
empty `url`, and a `reviewAgain` far in the past. -/
def recEmptyUrl : List (String × Json) :=
  [("title", Json.str "T"), ("url", Json.str ""), ("reviewAgain", Json.str "2020-01-01")]

/-- A concrete qualifying document record. -/
def recGood : List (String × Json) :=
  [("title", Json.str "T"), ("url", Json.str "u"), ("reviewAgain", Json.str "2020-01-01")]

/-- Claim C1, counterexample: a record whose `url` field is present (the
empty string) and whose `reviewAgain` parses to a date strictly in the past
is nevertheless skipped, because the source tests Python truthiness
(`if review_again_str and url:`), not presence.  Here "now" is ordinal
737430 (five days after 2020-01-01) and the configured maximum is 0, so
truncation cannot be the cause. -/
theorem c1_counterexample :
    lookupKey recEmptyUrl "url" = some (Json.str "") ∧
    parseDate "2020-01-01" = some ⟨2020, 1, 1⟩ ∧
    0 < (737430 : Int) - (toOrdinal ⟨2020, 1, 1⟩ : Int) ∧
    docEntry 737430 recEmptyUrl = none ∧
    get_out_of_date_docs 737430 0 (Json.arr [Json.obj recEmptyUrl]) = .ok [] :=
  ⟨rfl, by decide, by decide, by decide, rfl⟩

/-- Claim C1, amended: the qualifying pass of the Overdue Selector produces
an entry for a dict record exactly when the record's `url` is present and
truthy (non-empty), its `reviewAgain` is a string parsing as a `YYYY-MM-DD`
calendar date, and the whole-day difference from now is strictly positive;
the entry's `days_overdue` is exactly that difference (so a record due
today, with difference 0, is excluded); and records failing any condition
are skipped while the remaining records are still processed (the loop over
a sequence of dict records never raises and returns exactly the
qualifying entries, in input order). -/
theorem c1_selector_filter (now : Int) (doc : List (String × Json)) :
    (∀ e : OverdueEntry, docEntry now doc = some e ↔
      (truthy (pyGet doc "url") = true ∧
        ∃ s d, pyGet doc "reviewAgain" = Json.str s ∧ parseDate s = some d ∧
          0 < now - (toOrdinal d : Int) ∧
          e = ⟨pyGet doc "title", pyGet doc "url", now - (toOrdinal d : Int)⟩)) ∧
    (∀ s d, pyGet doc "reviewAgain" = Json.str s → parseDate s = some d →
      (toOrdinal d : Int) = now → docEntry now doc = none) ∧
    (∀ docs : List (List (String × Json)),
      collectEntries now (docs.map Json.obj) = .ok (docs.filterMap (docEntry now))) := by
  refine ⟨?_, ?_, collectEntries_map_obj now⟩
  · intro e
    rw [docEntry_eq_some]
    constructor
    · rintro ⟨s, d, hs, hu, hp, hdays, he⟩
      exact ⟨hu, s, d, hs, hp, hdays, he⟩
    · rintro ⟨hu, s, d, hs, hp, hdays, he⟩
      exact ⟨s, d, hs, hu, hp, hdays, he⟩
  · intro s d hs hp hord
    cases he : docEntry now doc with
    | none => rfl
    | some e =>
      rcases (docEntry_eq_some now doc e).mp he with ⟨s', d', hs', _, hp', hdays', _⟩
      rw [hs] at hs'
      have : s = s' := Json.str.inj hs'
      subst this
      rw [hp] at hp'
      have : d = d' := Option.some_inj.mp hp'
      subst this
      rw [hord] at hdays'
      omega

/-- Witness for the amended C1: a qualifying record five days overdue at
ordinal 737430 yields exactly the entry with `days_overdue = 5`. -/
theorem c1_selector_filter_witness :
    docEntry 737430 recGood = some ⟨Json.str "T", Json.str "u", 5⟩ :=
  ((c1_selector_filter 737430 recGood).1 ⟨Json.str "T", Json.str "u", 5⟩).mpr
    ⟨by decide, "2020-01-01", ⟨2020, 1, 1⟩, by decide, by decide, by decide, by decide⟩

theorem get_out_of_date_docs_arr (now maxDocs : Int) (items : List Json)
    (q : List OverdueEntry) (hq : collectEntries now items = .ok q) :
    get_out_of_date_docs now maxDocs (Json.arr items) =
      .ok (truncateDocs maxDocs (sortDesc q)) := by
  simp only [get_out_of_date_docs, pyIterate, hq]

/-- Claim C2: for every input (of any ordering) on which the selector
completes, its output is sorted in non-increasing order of `days_overdue`,
and the entries at any fixed `days_overdue` value appear in exactly the
order the qualifying pass produced them from the input (stable sort); the
output's equal-key subsequence is a prefix of the input's because of the
downstream truncation. -/
theorem c2_sorted_stable (now maxDocs : Int) (items : List Json)
    (q out : List OverdueEntry)
    (hq : collectEntries now items = .ok q)
    (hout : get_out_of_date_docs now maxDocs (Json.arr items) = .ok out) :
    out.Pairwise (fun a b => b.days_overdue ≤ a.days_overdue) ∧
    ∀ k : Int, ∃ r, q.filter (fun e => e.days_overdue == k) =
      out.filter (fun e => e.days_overdue == k) ++ r := by
  rw [get_out_of_date_docs_arr now maxDocs items q hq] at hout
  have hout' : out = truncateDocs maxDocs (sortDesc q) := (Except.ok.inj hout).symm
  subst hout'
  constructor
  · exact List.Pairwise.sublist (List.take_sublist _ _) (sortDesc_pairwise q)
  · intro k
    refine ⟨((sortDesc q).drop (if 0 < maxDocs then maxDocs.toNat else (sortDesc q).length)).filter
      (fun e => e.days_overdue == k), ?_⟩
    rw [← filter_sortDesc q k]
    conv_lhs => rw [← List.take_append_drop
      (if 0 < maxDocs then maxDocs.toNat else (sortDesc q).length) (sortDesc q)]
    rw [List.filter_append]
    rfl

/-- Witness for C2: a concrete three-record run with maximum 2 is sorted
descending. -/
theorem c2_sorted_stable_witness :
    List.Pairwise (fun a b : OverdueEntry => b.days_overdue ≤ a.days_overdue)
      [⟨Json.str "C", Json.str "c", 10⟩, ⟨Json.str "B", Json.str "b", 8⟩] :=
  (c2_sorted_stable 737435 2
    [Json.obj [("title", Json.str "A"), ("url", Json.str "a"), ("reviewAgain", Json.str "2020-01-05")],
     Json.obj [("title", Json.str "B"), ("url", Json.str "b"), ("reviewAgain", Json.str "2020-01-03")],
     Json.obj [("title", Json.str "C"), ("url", Json.str "c"), ("reviewAgain", Json.str "2020-01-01")]]
    [⟨Json.str "A", Json.str "a", 6⟩, ⟨Json.str "B", Json.str "b", 8⟩, ⟨Json.str "C", Json.str "c", 10⟩]
    [⟨Json.str "C", Json.str "c", 10⟩, ⟨Json.str "B", Json.str "b", 8⟩]
    rfl rfl).1

/-- Claim C3: when the selector completes with qualifying set `q`, a
positive maximum `N` yields exactly the first `N` entries of the sorted
qualifying set (so length `min N (length q)`), and maximum 0 yields the
whole sorted qualifying set, of full length. -/
theorem c3_truncation (now maxDocs : Int) (items : List Json)
    (q : List OverdueEntry) (hq : collectEntries now items = .ok q) :
    (0 < maxDocs →
      get_out_of_date_docs now maxDocs (Json.arr items) =
        .ok ((sortDesc q).take maxDocs.toNat) ∧
      ((sortDesc q).take maxDocs.toNat).length = min maxDocs.toNat q.length) ∧
    (maxDocs = 0 →
      get_out_of_date_docs now maxDocs (Json.arr items) = .ok (sortDesc q) ∧
      (sortDesc q).length = q.length) := by
  constructor
  · intro hpos
    constructor
    · rw [get_out_of_date_docs_arr now maxDocs items q hq]
      simp [truncateDocs, hpos]
    · rw [List.length_take, length_sortDesc]
  · intro h0
    subst h0
    constructor
    · rw [get_out_of_date_docs_arr now 0 items q hq]
      simp [truncateDocs, List.take_length]
    · exact length_sortDesc q

/-- Witness for C3: the three-record run with maximum 2 returns the two
most-overdue entries, of length `min 2 3`. -/
theorem c3_truncation_witness :
    get_out_of_date_docs 737435 2 (Json.arr
      [Json.obj [("title", Json.str "A"), ("url", Json.str "a"), ("reviewAgain", Json.str "2020-01-05")],
       Json.obj [("title", Json.str "B"), ("url", Json.str "b"), ("reviewAgain", Json.str "2020-01-03")],
       Json.obj [("title", Json.str "C"), ("url", Json.str "c"), ("reviewAgain", Json.str "2020-01-01")]]) =
      .ok ((sortDesc [⟨Json.str "A", Json.str "a", 6⟩, ⟨Json.str "B", Json.str "b", 8⟩,
        ⟨Json.str "C", Json.str "c", 10⟩]).take (2 : Int).toNat) ∧
    ((sortDesc [⟨Json.str "A", Json.str "a", 6⟩, ⟨Json.str "B", Json.str "b", 8⟩,
      ⟨Json.str "C", Json.str "c", 10⟩]).take (2 : Int).toNat).length =
      min (2 : Int).toNat ([⟨Json.str "A", Json.str "a", 6⟩, ⟨Json.str "B", Json.str "b", 8⟩,
        (⟨Json.str "C", Json.str "c", 10⟩ : OverdueEntry)] : List OverdueEntry).length :=
  (c3_truncation 737435 2
    [Json.obj [("title", Json.str "A"), ("url", Json.str "a"), ("reviewAgain", Json.str "2020-01-05")],
     Json.obj [("title", Json.str "B"), ("url", Json.str "b"), ("reviewAgain", Json.str "2020-01-03")],
     Json.obj [("title", Json.str "C"), ("url", Json.str "c"), ("reviewAgain", Json.str "2020-01-01")]]
    [⟨Json.str "A", Json.str "a", 6⟩, ⟨Json.str "B", Json.str "b", 8⟩, ⟨Json.str "C", Json.str "c", 10⟩]
    rfl).1 (by decide)

/-- Claim C7, counterexample: a perfectly valid parsed-JSON value — a
nonempty array whose element is the number 5 — makes `get_out_of_date_docs`
raise an uncaught `AttributeError` (`doc.get` on a non-dict), so the filter
is not total over arbitrary parsed-JSON input. -/
theorem c7_counterexample :
    get_out_of_date_docs 737435 10 (Json.arr [Json.num 5]) =
      .error "AttributeError: object has no attribute get" := rfl

/-- Claim C7, amended: the filter tolerates any array of objects — missing
or ill-typed fields are silently treated as absent and never raise — but a
parsed-JSON value that is an iterable containing a non-object element, or
that is not iterable at all (number, boolean, null), raises an uncaught
exception. -/
theorem c7_tolerance :
    (∀ (now maxDocs : Int) (docs : List (List (String × Json))), ∃ out,
      get_out_of_date_docs now maxDocs (Json.arr (docs.map Json.obj)) = .ok out) ∧
    (∀ (now maxDocs : Int) (items : List Json) (j : Json), j ∈ items →
      (∀ fs, j ≠ Json.obj fs) →
      ∃ e, get_out_of_date_docs now maxDocs (Json.arr items) = .error e) ∧
    (∀ (now maxDocs : Int) (b : Bool) (n : Int),
      (∃ e, get_out_of_date_docs now maxDocs (Json.bool b) = .error e) ∧
      (∃ e, get_out_of_date_docs now maxDocs (Json.num n) = .error e) ∧
      (∃ e, get_out_of_date_docs now maxDocs Json.null = .error e)) := by
  refine ⟨?_, ?_, ?_⟩
  · intro now maxDocs docs
    exact ⟨_, get_out_of_date_docs_arr now maxDocs (docs.map Json.obj) _
      (collectEntries_map_obj now docs)⟩
  · intro now maxDocs items j hmem hnotobj
    have herr : ∃ e, collectEntries now items = .error e := by
      induction items with
      | nil => exact absurd hmem (List.not_mem_nil j)
      | cons x rest ih =>
        rcases List.mem_cons.mp hmem with hx | hx
        · subst hx
          cases j with
          | obj fs => exact absurd rfl (hnotobj fs)
          | null => exact ⟨_, rfl⟩
          | bool b => exact ⟨_, rfl⟩
          | num n => exact ⟨_, rfl⟩
          | str s => exact ⟨_, rfl⟩
          | arr xs => exact ⟨_, rfl⟩
        · cases x with
          | obj fs =>
            rcases ih hx with ⟨e, he⟩
            refine ⟨e, ?_⟩
            simp only [collectEntries, he]
          | null => exact ⟨_, rfl⟩
          | bool b => exact ⟨_, rfl⟩
          | num n => exact ⟨_, rfl⟩
          | str s => exact ⟨_, rfl⟩
          | arr xs => exact ⟨_, rfl⟩
    rcases herr with ⟨e, he⟩
    refine ⟨e, ?_⟩
    simp only [get_out_of_date_docs, pyIterate, he]
  · intro now maxDocs b n
    exact ⟨⟨_, rfl⟩, ⟨_, rfl⟩, ⟨_, rfl⟩⟩

/-- Witness for the amended C7: an empty array of objects succeeds, and an
array containing the number 7 raises. -/
theorem c7_tolerance_witness :
    (∃ out, get_out_of_date_docs 1 2 (Json.arr (([] : List (List (String × Json))).map Json.obj)) = .ok out) ∧
    (∃ e, get_out_of_date_docs 1 2 (Json.arr [Json.num 7]) = .error e) :=
  ⟨c7_tolerance.1 1 2 [],
    c7_tolerance.2.1 1 2 [Json.num 7] (Json.num 7) (by simp)
      (fun fs h => Json.noConfusion h)⟩

/-- Claim C6, counterexample: a 200 response whose body parses as the JSON
number `0` — a value, not an empty body — still makes `get_doc_list` return
absence, because the source tests Python truthiness (`if data:`), under
which `0` is falsy although it is not empty. -/
theorem c6_counterexample :
    get_doc_list (HttpResult.resp 200 (.ok (Json.num 0))) = none ∧
    specEmptyJson (Json.num 0) = false :=
  ⟨rfl, rfl⟩

/-- Claim C6, amended: `get_doc_list` returns the parsed payload unchanged
exactly when the GET raised no transport error, the status is 200, the body
parsed as JSON and the parsed value is truthy (non-falsy: not `null`,
`false`, `0`, `""`, `[]` or `{}`); in every other case it returns absence. -/
theorem c6_fetch_classification (r : HttpResult) (j : Json) :
    get_doc_list r = some j ↔
      (r = HttpResult.resp 200 (.ok j) ∧ truthy j = true) := by
  constructor
  · intro h
    cases r with
    | exn m => exact absurd h (by simp [get_doc_list])
    | resp status body =>
      simp only [get_doc_list] at h
      by_cases hs : status == 200
      · rw [if_pos hs] at h
        cases body with
        | ok data =>
          dsimp only at h
          split at h
          next ht =>
            have hj : data = j := Option.some_inj.mp h
            subst hj
            rw [beq_iff_eq] at hs
            subst hs
            exact ⟨rfl, ht⟩
          next => exact absurd h (by simp)
        | error m => exact absurd h (by simp)
      · rw [if_neg hs] at h
        exact absurd h (by simp)
  · rintro ⟨rfl, ht⟩
    simp [get_doc_list, ht]

/-- A concrete environment in which `MAX_DOCS` is unset (the integer default
10 applies) but a fetched inventory is the JSON array `[5]`, whose non-dict
element crashes the selector. -/
def envCrash : Env where
  maxDocsEnv := none
  pageListFile := .ok (Json.obj [("pages", Json.arr [Json.str "http://a.test/inv"])])
  templateFile := .error "missing template"
  webhookUrl := ""
  fetch := fun _ => HttpResult.resp 200 (.ok (Json.arr [Json.num 5]))
  post := fun _ => HttpResult.resp 200 (.ok Json.null)
  now := 737435

/-- Claim C9, counterexample: a run whose max-documents value parses fine
(the default 10) still terminates with status 1, because an inventory
payload `[5]` raises an uncaught `AttributeError` inside `main` and a
Python traceback exits nonzero — contradicting "every other termination
exits with status 0". -/
theorem c9_counterexample :
    parsedMaxDocs envCrash = some 10 ∧ runProcess envCrash = 1 :=
  ⟨rfl, rfl⟩

/-- Claim C9, amended: the process exits 1 exactly when the configured
max-documents value does not parse as an integer (this happens at startup,
before any I/O) or when the run raises an uncaught exception (a `pages`
value that is not iterable, or a fetched payload that is not a sequence of
dicts); it exits 0 exactly when the value parses and the run completes
without an uncaught exception — including runs with per-URL fetch, parse,
template, or notification failures, which are all caught. -/
theorem c9_exit_codes (env : Env) :
    (runProcess env = 1 ↔ parsedMaxDocs env = none ∨
      ∃ n e, parsedMaxDocs env = some n ∧ (mainRun env n).2 = some e) ∧
    (runProcess env = 0 ↔
      ∃ n, parsedMaxDocs env = some n ∧ (mainRun env n).2 = none) := by
  unfold runProcess
  cases hp : parsedMaxDocs env with
  | none => simp
  | some n =>
    cases hm : (mainRun env n).2 with
    | none => simp [hm]
    | some e => simp [hm]

/-- Relation between an optional block and its updated form stating that the
update changed nothing except the (string) value stored at the `text` key of
the block's `text` object: both are objects, both have a `text` object, all
other keys of the block and of its `text` object are unchanged, and the
inner `text` key of the updated block holds some string. -/
def sameExceptText (ob ob' : Option Json) : Prop :=
  ∃ bf bf' tf tf' s, ob = some (Json.obj bf) ∧ ob' = some (Json.obj bf') ∧
    lookupKey bf "text" = some (Json.obj tf) ∧
    lookupKey bf' "text" = some (Json.obj tf') ∧
    (∀ k, k ≠ "text" → lookupKey bf' k = lookupKey bf k) ∧
    (∀ k, k ≠ "text" → lookupKey tf' k = lookupKey tf k) ∧
    lookupKey tf' "text" = some (Json.str s)

theorem sameExceptText_trans (a b c : Option Json)
    (hab : sameExceptText a b) (hbc : sameExceptText b c) :
    sameExceptText a c := by
  rcases hab with ⟨bf, bm, tf, tm, s1, ha, hb, htf, htm, hkb, hkt, _⟩
  rcases hbc with ⟨bm', bc', tm', tc', s2, hb', hc, htm', htc', hkb', hkt', hstr⟩
  rw [hb] at hb'
  have hbm : bm = bm' := Json.obj.inj (Option.some_inj.mp hb')
  subst hbm
  rw [htm] at htm'
  have htmm : tm = tm' := Json.obj.inj (Option.some_inj.mp htm')
  subst htmm
  exact ⟨bf, bc', tf, tc', s2, ha, hc, htf, htc',
    fun k hk => (hkb' k hk).trans (hkb k hk),
    fun k hk => (hkt' k hk).trans (hkt k hk), hstr⟩

theorem normIdx_zero (n : Nat) (i : Nat) (h : normIdx 0 n = some i) :
    i = 0 ∧ 0 < n := by
  simp only [normIdx] at h
  split at h
  next hc => exact absurd hc (by decide)
  next =>
    split at h
    next hc =>
      rw [Bool.and_eq_true, decide_eq_true_eq, decide_eq_true_eq] at hc
      have := Option.some_inj.mp h
      omega
    next => exact absurd h (by simp)

theorem normIdx_one (n : Nat) (i : Nat) (h : normIdx 1 n = some i) :
    i = 1 ∧ 1 < n := by
  simp only [normIdx] at h
  split at h
  next hc => exact absurd hc (by decide)
  next =>
    split at h
    next hc =>
      rw [Bool.and_eq_true, decide_eq_true_eq, decide_eq_true_eq] at hc
      have := Option.some_inj.mp h
      omega
    next => exact absurd h (by simp)

theorem normIdx_negTwo (n : Nat) (i : Nat) (h : normIdx (-2) n = some i) :
    i = n - 2 ∧ 2 ≤ n := by
  simp only [normIdx] at h
  split at h
  next =>
    split at h
    next hc =>
      rw [Bool.and_eq_true, decide_eq_true_eq, decide_eq_true_eq] at hc
      have := Option.some_inj.mp h
      omega
    next => exact absurd h (by simp)
  next hnc => exact absurd (by decide : (-2 : Int) < 0) hnc

theorem setTextAt_eq_some (t : Json) (idx : Int) (v : String) (t' : Json) :
    setTextAt t idx v = some t' ↔
      ∃ fs blocks i bf tf, t = Json.obj fs ∧
        lookupKey fs "blocks" = some (Json.arr blocks) ∧
        normIdx idx blocks.length = some i ∧
        blocks[i]? = some (Json.obj bf) ∧
        lookupKey bf "text" = some (Json.obj tf) ∧
        t' = Json.obj (setKey fs "blocks" (Json.arr (blocks.set i
          (Json.obj (setKey bf "text" (Json.obj (setKey tf "text" (Json.str v)))))))) := by
  constructor
  · intro h
    unfold setTextAt at h
    split at h
    next fs =>
      split at h
      next blocks hlk =>
        split at h
        next i hni =>
          split at h
          next bf hbi =>
            split at h
            next tf htx =>
              exact ⟨fs, blocks, i, bf, tf, rfl, hlk, hni, hbi, htx,
                (Option.some_inj.mp h).symm⟩
            next => exact absurd h (by simp)
          next => exact absurd h (by simp)
        next => exact absurd h (by simp)
      next => exact absurd h (by simp)
    next => exact absurd h (by simp)
  · rintro ⟨fs, blocks, i, bf, tf, rfl, hlk, hni, hbi, htx, rfl⟩
    simp only [setTextAt, hlk, hni, hbi, htx]

theorem sameExceptText_set (blocks : List Json) (i : Nat)
    (bf tf : List (String × Json)) (v : String)
    (hbi : blocks[i]? = some (Json.obj bf))
    (htx : lookupKey bf "text" = some (Json.obj tf)) :
    sameExceptText blocks[i]?
      ((blocks.set i (Json.obj (setKey bf "text"
        (Json.obj (setKey tf "text" (Json.str v))))))[i]?) := by
  have hlt : i < blocks.length := by
    rcases List.getElem?_eq_some.mp hbi with ⟨h, _⟩
    exact h
  refine ⟨bf, setKey bf "text" (Json.obj (setKey tf "text" (Json.str v))),
    tf, setKey tf "text" (Json.str v), v, hbi,
    List.getElem?_set_eq_of_lt _ hlt, htx, lookupKey_setKey_self _ _ _,
    fun k hk => lookupKey_setKey_ne _ _ _ _ hk,
    fun k hk => lookupKey_setKey_ne _ _ _ _ hk,
    lookupKey_setKey_self _ _ _⟩

theorem build_slack_message_ok_some (maxDocsInt : Int) (template : Json)
    (docs : List OverdueEntry) (pagesUrl : Json) (out : Json)
    (h : build_slack_message maxDocsInt template docs pagesUrl = .ok (some out)) :
    ∃ listT t1 t2, truthy template = true ∧
      buildListText pagesUrl docs = .ok listT ∧
      setTextAt template 0 (headerText docs.length) = some t1 ∧
      setTextAt t1 1 (listHeadingText maxDocsInt docs.length) = some t2 ∧
      setTextAt t2 (-2) listT = some out := by
  simp only [build_slack_message] at h
  split at h
  next htr =>
    split at h
    next listT hlist =>
      split at h
      next t1 h1 =>
        split at h
        next t2 h2 =>
          split at h
          next t3 h3 =>
            exact ⟨listT, t1, t2, htr, hlist, h1, h2,
              h3.trans (congrArg some (Option.some_inj.mp (Except.ok.inj h)))⟩
          next => exact absurd h (by simp)
        next => exact absurd h (by simp)
      next => exact absurd h (by simp)
    next e he => exact absurd h (by simp)
  next => exact absurd h (by simp)

/-- Claim C5: whenever `build_slack_message` returns a message, the returned
document is the loaded template with only the `blocks` entry changed; the
blocks list keeps its length, every block other than `blocks[0]`,
`blocks[1]` and `blocks[length-2]` (which is `blocks[-2]`) is unchanged, and
each of those three differs from the original only in the string stored at
the `text` key of its `text` object, every other field being preserved. -/
theorem c5_template_frame (maxDocsInt : Int) (template : Json)
    (docs : List OverdueEntry) (pagesUrl : Json) (out : Json)
    (h : build_slack_message maxDocsInt template docs pagesUrl = .ok (some out)) :
    ∃ fs blocks blocks', template = Json.obj fs ∧
      lookupKey fs "blocks" = some (Json.arr blocks) ∧
      out = Json.obj (setKey fs "blocks" (Json.arr blocks')) ∧
      blocks'.length = blocks.length ∧
      (∀ k, k ≠ "blocks" →
        lookupKey (setKey fs "blocks" (Json.arr blocks')) k = lookupKey fs k) ∧
      (∀ j : Nat, j ≠ 0 → j ≠ 1 → j ≠ blocks.length - 2 →
        blocks'[j]? = blocks[j]?) ∧
      (∀ j : Nat, (j = 0 ∨ j = 1 ∨ j = blocks.length - 2) →
        sameExceptText blocks[j]? blocks'[j]?) := by
  obtain ⟨listT, t1, t2, htr, hlist, h1, h2, h3⟩ :=
    build_slack_message_ok_some maxDocsInt template docs pagesUrl out h
  rcases (setTextAt_eq_some template 0 _ t1).mp h1 with
    ⟨fs, blocks, i0, bf0, tf0, hT, hlk, hni0, hb0, ht0, ht1eq⟩
  obtain ⟨hi0, hn1⟩ := normIdx_zero _ _ hni0
  subst hi0
  subst ht1eq
  rcases (setTextAt_eq_some _ 1 _ t2).mp h2 with
    ⟨fs1, blocks1, i1, bf1, tf1, hT1, hlk1, hni1, hb1, ht1, ht2eq⟩
  have hfs1 : fs1 = setKey fs "blocks" (Json.arr (blocks.set 0
      (Json.obj (setKey bf0 "text" (Json.obj (setKey tf0 "text"
        (Json.str (headerText docs.length)))))))) := (Json.obj.inj hT1).symm
  subst hfs1
  rw [lookupKey_setKey_self] at hlk1
  have hB1 : blocks1 = blocks.set 0
      (Json.obj (setKey bf0 "text" (Json.obj (setKey tf0 "text"
        (Json.str (headerText docs.length)))))) :=
    (Json.arr.inj (Option.some_inj.mp hlk1)).symm
  subst hB1
  obtain ⟨hi1, hn2⟩ := normIdx_one _ _ hni1
  subst hi1
  subst ht2eq
  rcases (setTextAt_eq_some _ (-2) _ out).mp h3 with
    ⟨fs2, blocks2, i2, bf2, tf2, hT2, hlk2, hni2, hb2, ht2, ht3eq⟩
  have hfs2 : fs2 = setKey (setKey fs "blocks" (Json.arr (blocks.set 0
      (Json.obj (setKey bf0 "text" (Json.obj (setKey tf0 "text"
        (Json.str (headerText docs.length))))))))) "blocks"
      (Json.arr ((blocks.set 0
        (Json.obj (setKey bf0 "text" (Json.obj (setKey tf0 "text"
          (Json.str (headerText docs.length))))))).set 1
        (Json.obj (setKey bf1 "text" (Json.obj (setKey tf1 "text"
          (Json.str (listHeadingText maxDocsInt docs.length)))))))) :=
    (Json.obj.inj hT2).symm
  subst hfs2
  rw [lookupKey_setKey_self] at hlk2
  have hB2 : blocks2 = (blocks.set 0
      (Json.obj (setKey bf0 "text" (Json.obj (setKey tf0 "text"
        (Json.str (headerText docs.length))))))).set 1
      (Json.obj (setKey bf1 "text" (Json.obj (setKey tf1 "text"
        (Json.str (listHeadingText maxDocsInt docs.length)))))) :=
    (Json.arr.inj (Option.some_inj.mp hlk2)).symm
  subst hB2
  obtain ⟨hi2, hn2'⟩ := normIdx_negTwo _ _ hni2
  rw [List.length_set, List.length_set] at hi2 hn2'
  subst hi2
  subst ht3eq
  set N0 := Json.obj (setKey bf0 "text" (Json.obj (setKey tf0 "text"
    (Json.str (headerText docs.length))))) with hN0
  set N1 := Json.obj (setKey bf1 "text" (Json.obj (setKey tf1 "text"
    (Json.str (listHeadingText maxDocsInt docs.length))))) with hN1
  set N2 := Json.obj (setKey bf2 "text" (Json.obj (setKey tf2 "text"
    (Json.str listT)))) with hN2
  set B1 := blocks.set 0 N0 with hB1def
  set B2 := B1.set 1 N1 with hB2def
  set B3 := B2.set (blocks.length - 2) N2 with hB3def
  refine ⟨fs, blocks, B3, hT, hlk, ?_, ?_, ?_, ?_, ?_⟩
  · rw [setKey_setKey, setKey_setKey]
  · rw [hB3def, hB2def, hB1def,
      List.length_set, List.length_set, List.length_set]
  · intro k hk
    exact lookupKey_setKey_ne _ _ _ _ hk
  · intro j hj0 hj1 hj2
    rw [hB3def, hB2def, hB1def,
      List.getElem?_set_ne (fun he => hj2 he.symm),
      List.getElem?_set_ne (fun he => hj1 he.symm),
      List.getElem?_set_ne (fun he => hj0 he.symm)]
  · have frame0 : sameExceptText blocks[0]? B3[0]? := by
      have s0 : sameExceptText blocks[0]? B1[0]? :=
        sameExceptText_set blocks 0 bf0 tf0 _ hb0 ht0
      have e1 : B2[0]? = B1[0]? :=
        List.getElem?_set_ne (by omega : (1 : Nat) ≠ 0)
      by_cases hc : blocks.length - 2 = 0
      · have s2 : sameExceptText B2[blocks.length - 2]? B3[blocks.length - 2]? :=
          sameExceptText_set B2 _ bf2 tf2 _ hb2 ht2
        rw [hc, e1] at s2
        exact sameExceptText_trans _ _ _ s0 s2
      · rw [hB3def, List.getElem?_set_ne hc, e1]
        exact s0
    have frame1 : sameExceptText blocks[1]? B3[1]? := by
      have e0 : B1[1]? = blocks[1]? :=
        List.getElem?_set_ne (by omega : (0 : Nat) ≠ 1)
      have s1 : sameExceptText B1[1]? B2[1]? :=
        sameExceptText_set B1 1 bf1 tf1 _ hb1 ht1
      rw [e0] at s1
      by_cases hc : blocks.length - 2 = 1
      · have s2 : sameExceptText B2[blocks.length - 2]? B3[blocks.length - 2]? :=
          sameExceptText_set B2 _ bf2 tf2 _ hb2 ht2
        rw [hc] at s2
        exact sameExceptText_trans _ _ _ s1 s2
      · rw [hB3def, List.getElem?_set_ne hc]
        exact s1
    have frame2 : sameExceptText blocks[blocks.length - 2]? B3[blocks.length - 2]? := by
      by_cases hc0 : blocks.length - 2 = 0
      · rw [hc0]; exact frame0
      · by_cases hc1 : blocks.length - 2 = 1
        · rw [hc1]; exact frame1
        · have s2 : sameExceptText B2[blocks.length - 2]? B3[blocks.length - 2]? :=
            sameExceptText_set B2 _ bf2 tf2 _ hb2 ht2
          rw [hB2def, hB1def,
            List.getElem?_set_ne (fun he => hc1 he.symm),
            List.getElem?_set_ne (fun he => hc0 he.symm)] at s2
          exact s2
    intro j hj
    rcases hj with hj | hj | hj
    · rw [hj]; exact frame0
    · rw [hj]; exact frame1
    · rw [hj]; exact frame2

theorem head_append (s : String) (c : Char) (cs : List Char)
    (h : s.data = c :: cs) (t : String) :
    ∃ cs', (s ++ t).data = c :: cs' :=
  ⟨cs ++ t.data, by rw [String.data_append, h]; rfl⟩

theorem headerText_head (n : Nat) :
    ∃ cs, (headerText n).data = ':' :: cs := by
  have h0 : (":rocco-docco-quokka: Hello. :paw_prints: This is Rocco, your friendly docco quokka. I\x27ve found " : String).data =
      ':' :: ("rocco-docco-quokka: Hello. :paw_prints: This is Rocco, your friendly docco quokka. I\x27ve found " : String).data := rfl
  obtain ⟨c1, h1⟩ := head_append _ _ _ h0 (toString n)
  obtain ⟨c2, h2⟩ := head_append _ _ _ h1 " page"
  obtain ⟨c3, h3⟩ := head_append _ _ _ h2 (if n != 1 then "s" else "")
  obtain ⟨c4, h4⟩ := head_append _ _ _ h3 " overdue for review."
  refine ⟨c4, ?_⟩
  unfold headerText
  exact h4

theorem listLine_head (b : String) (e : OverdueEntry) :
    ∃ cs, (listLine b e).data = 'â' :: cs := by
  have h0 : ("â€¢ <" : String).data = 'â' :: ("€¢ <" : String).data := rfl
  obtain ⟨c1, h1⟩ := head_append _ _ _ h0 b
  obtain ⟨c2, h2⟩ := head_append _ _ _ h1 (pyStr e.url)
  obtain ⟨c3, h3⟩ := head_append _ _ _ h2 "|"
  obtain ⟨c4, h4⟩ := head_append _ _ _ h3 (pyStr e.title)
  obtain ⟨c5, h5⟩ := head_append _ _ _ h4 "> ("
  obtain ⟨c6, h6⟩ := head_append _ _ _ h5 (toString e.days_overdue)
  obtain ⟨c7, h7⟩ := head_append _ _ _ h6 " day"
  obtain ⟨c8, h8⟩ := head_append _ _ _ h7 (if e.days_overdue != 1 then "s" else "")
  obtain ⟨c9, h9⟩ := head_append _ _ _ h8 " ago)\n"
  refine ⟨c9, ?_⟩
  unfold listLine
  exact h9

theorem buildListTextAux_data (u : Json) (l : List OverdueEntry) :
    ∀ acc s, buildListTextAux u acc l = .ok s → ∃ t, s.data = acc.data ++ t := by
  induction l with
  | nil =>
    intro acc s h
    have : acc = s := Except.ok.inj h
    exact ⟨[], by rw [← this, List.append_nil]⟩
  | cons e rest ih =>
    intro acc s h
    simp only [buildListTextAux] at h
    cases hup : pyUrlparse u with
    | ok pr =>
      rw [hup] at h
      dsimp only at h
      rcases ih _ _ h with ⟨t, ht⟩
      refine ⟨(listLine (baseUrlOf pr) e).data ++ t, ?_⟩
      rw [ht, String.data_append, List.append_assoc]
    | error er =>
      rw [hup] at h
      exact absurd h (by simp)

theorem buildListText_str_ok (u : String) (docs : List OverdueEntry) :
    ∃ s, buildListText (Json.str u) docs = .ok s := by
  suffices h : ∀ acc, ∃ s, buildListTextAux (Json.str u) acc docs = .ok s by
    exact h ""
  induction docs with
  | nil => intro acc; exact ⟨acc, rfl⟩
  | cons e rest ih =>
    intro acc
    simp only [buildListTextAux, pyUrlparse]
    exact ih _

theorem listText_ne_headerText (u : Json) (docs : List OverdueEntry) (s : String)
    (h : buildListText u docs = .ok s) (n : Nat) : s ≠ headerText n := by
  intro he
  obtain ⟨th, hh⟩ := headerText_head n
  cases docs with
  | nil =>
    have hs : s = "" := (Except.ok.inj h).symm
    rw [he] at hs
    rw [hs] at hh
    exact absurd hh (by simp)
  | cons e rest =>
    simp only [buildListText, buildListTextAux] at h
    cases hup : pyUrlparse u with
    | error er =>
      rw [hup] at h
      exact absurd h (by simp)
    | ok pr =>
      rw [hup] at h
      dsimp only at h
      rcases buildListTextAux_data u rest _ s h with ⟨t, ht⟩
      rw [String.data_append] at ht
      obtain ⟨cs, hl⟩ := listLine_head (baseUrlOf pr) e
      rw [hl] at ht
      rw [he, hh] at ht
      simp only [List.nil_append] at ht
      have : (':' : Char) = 'â' := by
        have := List.head_eq_of_cons_eq ht
        exact this
      exact absurd this (by decide)

/-- Claim C10: for a loaded template whose `blocks` list has exactly two
entries of the expected shape, `build_slack_message` succeeds and returns a
message, but since `blocks[-2]` is `blocks[0]`, the list-body write lands on
the first block: the returned message's first block text is the bulleted
document list (which is never equal to the greeting), the second block text
is the list heading, and no failure path (which would log a warning and
return `None`) is taken. -/
theorem c10_two_block_header_overwritten (maxDocsInt : Int)
    (docs : List OverdueEntry) (u : String)
    (fs b0 b1 tf0 tf1 : List (String × Json))
    (hlk : lookupKey fs "blocks" = some (Json.arr [Json.obj b0, Json.obj b1]))
    (ht0 : lookupKey b0 "text" = some (Json.obj tf0))
    (ht1 : lookupKey b1 "text" = some (Json.obj tf1)) :
    ∃ out listT, buildListText (Json.str u) docs = .ok listT ∧
      build_slack_message maxDocsInt (Json.obj fs) docs (Json.str u) = .ok (some out) ∧
      jTextAt out 0 = some listT ∧
      jTextAt out 1 = some (listHeadingText maxDocsInt docs.length) ∧
      listT ≠ headerText docs.length := by
  obtain ⟨listT, hlist⟩ := buildListText_str_ok u docs
  have htruthy : truthy (Json.obj fs) = true := by
    cases fs with
    | nil => simp [lookupKey] at hlk
    | cons a l => simp [truthy]
  have h1 : setTextAt (Json.obj fs) 0 (headerText docs.length) =
      some (Json.obj (setKey fs "blocks" (Json.arr
        [Json.obj (setKey b0 "text" (Json.obj (setKey tf0 "text"
          (Json.str (headerText docs.length))))), Json.obj b1]))) :=
    (setTextAt_eq_some _ _ _ _).mpr
      ⟨fs, [Json.obj b0, Json.obj b1], 0, b0, tf0, rfl, hlk, rfl, rfl, ht0, rfl⟩
  have h2 : setTextAt (Json.obj (setKey fs "blocks" (Json.arr
      [Json.obj (setKey b0 "text" (Json.obj (setKey tf0 "text"
        (Json.str (headerText docs.length))))), Json.obj b1]))) 1
      (listHeadingText maxDocsInt docs.length) =
      some (Json.obj (setKey (setKey fs "blocks" (Json.arr
        [Json.obj (setKey b0 "text" (Json.obj (setKey tf0 "text"
          (Json.str (headerText docs.length))))), Json.obj b1])) "blocks"
        (Json.arr
          [Json.obj (setKey b0 "text" (Json.obj (setKey tf0 "text"
            (Json.str (headerText docs.length))))),
           Json.obj (setKey b1 "text" (Json.obj (setKey tf1 "text"
            (Json.str (listHeadingText maxDocsInt docs.length)))))]))) :=
    (setTextAt_eq_some _ _ _ _).mpr
      ⟨_, [Json.obj (setKey b0 "text" (Json.obj (setKey tf0 "text"
          (Json.str (headerText docs.length))))), Json.obj b1], 1, b1, tf1,
        rfl, lookupKey_setKey_self _ _ _, rfl, rfl, ht1, rfl⟩
  have h3 : setTextAt (Json.obj (setKey (setKey fs "blocks" (Json.arr
      [Json.obj (setKey b0 "text" (Json.obj (setKey tf0 "text"
        (Json.str (headerText docs.length))))), Json.obj b1])) "blocks"
      (Json.arr
        [Json.obj (setKey b0 "text" (Json.obj (setKey tf0 "text"
          (Json.str (headerText docs.length))))),
         Json.obj (setKey b1 "text" (Json.obj (setKey tf1 "text"
          (Json.str (listHeadingText maxDocsInt docs.length)))))]))) (-2) listT =
      some (Json.obj (setKey (setKey (setKey fs "blocks" (Json.arr
        [Json.obj (setKey b0 "text" (Json.obj (setKey tf0 "text"
          (Json.str (headerText docs.length))))), Json.obj b1])) "blocks"
        (Json.arr
          [Json.obj (setKey b0 "text" (Json.obj (setKey tf0 "text"
            (Json.str (headerText docs.length))))),
           Json.obj (setKey b1 "text" (Json.obj (setKey tf1 "text"
            (Json.str (listHeadingText maxDocsInt docs.length)))))])) "blocks"
        (Json.arr
          [Json.obj (setKey (setKey b0 "text" (Json.obj (setKey tf0 "text"
            (Json.str (headerText docs.length))))) "text"
            (Json.obj (setKey (setKey tf0 "text" (Json.str (headerText docs.length)))
              "text" (Json.str listT)))),
           Json.obj (setKey b1 "text" (Json.obj (setKey tf1 "text"
            (Json.str (listHeadingText maxDocsInt docs.length)))))]))) :=
    (setTextAt_eq_some _ _ _ _).mpr
      ⟨_, [Json.obj (setKey b0 "text" (Json.obj (setKey tf0 "text"
          (Json.str (headerText docs.length))))),
         Json.obj (setKey b1 "text" (Json.obj (setKey tf1 "text"
          (Json.str (listHeadingText maxDocsInt docs.length)))))], 0,
        setKey b0 "text" (Json.obj (setKey tf0 "text"
          (Json.str (headerText docs.length)))),
        setKey tf0 "text" (Json.str (headerText docs.length)),
        rfl, lookupKey_setKey_self _ _ _, rfl, rfl,
        lookupKey_setKey_self _ _ _, rfl⟩
  have hbuild : build_slack_message maxDocsInt (Json.obj fs) docs (Json.str u) =
      .ok (some (Json.obj (setKey (setKey (setKey fs "blocks" (Json.arr
        [Json.obj (setKey b0 "text" (Json.obj (setKey tf0 "text"
          (Json.str (headerText docs.length))))), Json.obj b1])) "blocks"
        (Json.arr
          [Json.obj (setKey b0 "text" (Json.obj (setKey tf0 "text"
            (Json.str (headerText docs.length))))),
           Json.obj (setKey b1 "text" (Json.obj (setKey tf1 "text"
            (Json.str (listHeadingText maxDocsInt docs.length)))))])) "blocks"
        (Json.arr
          [Json.obj (setKey (setKey b0 "text" (Json.obj (setKey tf0 "text"
            (Json.str (headerText docs.length))))) "text"
            (Json.obj (setKey (setKey tf0 "text" (Json.str (headerText docs.length)))
              "text" (Json.str listT)))),
           Json.obj (setKey b1 "text" (Json.obj (setKey tf1 "text"
            (Json.str (listHeadingText maxDocsInt docs.length)))))])))) := by
    simp only [build_slack_message, htruthy, if_true, hlist, h1, h2, h3]
  refine ⟨_, listT, hlist, hbuild, ?_, ?_, listText_ne_headerText _ _ _ hlist _⟩
  · simp only [jTextAt, lookupKey_setKey_self, normIdx]
    norm_num
    rw [lookupKey_setKey_self]
    dsimp only
    rw [lookupKey_setKey_self]
  · simp only [jTextAt, lookupKey_setKey_self, normIdx]
    norm_num
    rw [lookupKey_setKey_self]
    dsimp only
    rw [lookupKey_setKey_self]

/-- A concrete first block of a two-block template. -/
def b0C : List (String × Json) :=
  [("type", Json.str "header"), ("text", Json.obj [("text", Json.str "greeting")])]

/-- The `text` object of `b0C`. -/
def tf0C : List (String × Json) := [("text", Json.str "greeting")]

/-- A concrete second block of a two-block template. -/
def b1C : List (String × Json) :=
  [("text", Json.obj [("text", Json.str "heading")])]

/-- The `text` object of `b1C`. -/
def tf1C : List (String × Json) := [("text", Json.str "heading")]

/-- The fields of a concrete two-block template document. -/
def fs2C : List (String × Json) :=
  [("blocks", Json.arr [Json.obj b0C, Json.obj b1C])]

/-- A concrete single overdue entry, three days past due. -/
def docsC : List OverdueEntry := [⟨Json.str "T", Json.str "p", 3⟩]

/-- Witness for C10: a concrete two-block template and one overdue document
build successfully with the list body landing in block 0. -/
theorem c10_two_block_header_overwritten_witness :
    ∃ out listT, buildListText (Json.str "http://a.test/i") docsC = .ok listT ∧
      build_slack_message 10 (Json.obj fs2C) docsC (Json.str "http://a.test/i") =
        .ok (some out) ∧
      jTextAt out 0 = some listT ∧
      jTextAt out 1 = some (listHeadingText 10 docsC.length) ∧
      listT ≠ headerText docsC.length :=
  c10_two_block_header_overwritten 10 docsC "http://a.test/i" fs2C b0C b1C tf0C tf1C
    rfl rfl rfl

/-- A concrete four-block template document. -/
def tmplC : Json := Json.obj [
  ("channel", Json.str "#docs"),
  ("blocks", Json.arr [
    Json.obj [("type", Json.str "header"),
      ("text", Json.obj [("type", Json.str "plain_text"), ("text", Json.str "greeting")])],
    Json.obj [("type", Json.str "section"),
      ("text", Json.obj [("type", Json.str "mrkdwn"), ("text", Json.str "heading")])],
    Json.obj [("type", Json.str "section"),
      ("text", Json.obj [("type", Json.str "mrkdwn"), ("text", Json.str "list")])],
    Json.obj [("type", Json.str "section"),
      ("text", Json.obj [("type", Json.str "mrkdwn"), ("text", Json.str "footer")])]])]

/-- The message built from `tmplC` and `docsC` with maximum 10. -/
def outC : Json := Json.obj [
  ("channel", Json.str "#docs"),
  ("blocks", Json.arr [
    Json.obj [("type", Json.str "header"),
      ("text", Json.obj [("type", Json.str "plain_text"),
        ("text", Json.str ":rocco-docco-quokka: Hello. :paw_prints: This is Rocco, your friendly docco quokka. I\x27ve found 1 page overdue for review.")])],
    Json.obj [("type", Json.str "section"),
      ("text", Json.obj [("type", Json.str "mrkdwn"), ("text", Json.str "Here is the full list:")])],
    Json.obj [("type", Json.str "section"),
      ("text", Json.obj [("type", Json.str "mrkdwn"),
        ("text", Json.str "â€¢ <http://a.test/p|T> (3 days ago)\n")])],
    Json.obj [("type", Json.str "section"),
      ("text", Json.obj [("type", Json.str "mrkdwn"), ("text", Json.str "footer")])]])]

/-- Witness for C5: building from the concrete four-block template mutates
only the three expected block texts. -/
theorem c5_template_frame_witness :
    ∃ fs blocks blocks', tmplC = Json.obj fs ∧
      lookupKey fs "blocks" = some (Json.arr blocks) ∧
      outC = Json.obj (setKey fs "blocks" (Json.arr blocks')) ∧
      blocks'.length = blocks.length ∧
      (∀ k, k ≠ "blocks" →
        lookupKey (setKey fs "blocks" (Json.arr blocks')) k = lookupKey fs k) ∧
      (∀ j : Nat, j ≠ 0 → j ≠ 1 → j ≠ blocks.length - 2 →
        blocks'[j]? = blocks[j]?) ∧
      (∀ j : Nat, (j = 0 ∨ j = 1 ∨ j = blocks.length - 2) →
        sameExceptText blocks[j]? blocks'[j]?) :=
  c5_template_frame 10 tmplC docsC (Json.str "http://a.test/i") outC rfl

/-- Claim C4, evaluation at the failing input: with the default maximum 10
and eleven qualifying records, the full overdue set (11 entries) does not
fit within the maximum, yet the built message's list heading is the
"here is the full list" phrasing, because `build_slack_message` compares
the length of the already-truncated list (10 ≤ 10).  The "top N oldest"
phrasing is unreachable from `main` for any nonnegative maximum. -/
theorem c4_heading_uses_truncated_length :
    ∃ q out msg,
      collectEntries 737430 (List.replicate 11 (Json.obj recGood)) = .ok q ∧
      q.length = 11 ∧ ¬((q.length : Int) ≤ 10) ∧
      get_out_of_date_docs 737430 10
        (Json.arr (List.replicate 11 (Json.obj recGood))) = .ok out ∧
      out.length = 10 ∧
      build_slack_message 10 tmplC out (Json.str "http://a.test/i") = .ok (some msg) ∧
      jTextAt msg 1 = some "Here is the full list:" ∧
      listHeadingText 10 out.length = "Here is the full list:" := by
  refine ⟨_, _, _, rfl, rfl, by decide, rfl, rfl, rfl, rfl, rfl⟩

theorem processUrl_post_inv (env : Env) (n : Int) (u : Json) (p : Json × Json)
    (h : processUrl env n u = .ok (some p)) :
    p.1 = u ∧ env.webhookUrl ≠ "" ∧
      ∃ dl od, get_doc_list (env.fetch u) = some dl ∧
        get_out_of_date_docs env.now n dl = .ok od ∧ od ≠ [] := by
  unfold processUrl at h
  cases hdl : get_doc_list (env.fetch u) with
  | none => rw [hdl] at h; exact absurd h (by simp)
  | some dl =>
    rw [hdl] at h
    dsimp only at h
    cases hod : get_out_of_date_docs env.now n dl with
    | error e => rw [hod] at h; exact absurd h (by simp)
    | ok od =>
      rw [hod] at h
      dsimp only at h
      split at h
      next hemp => exact absurd h (by simp)
      next hemp =>
        split at h
        next hw => exact absurd h (by simp)
        next hw =>
          split at h
          next => exact absurd h (by simp)
          next => exact absurd h (by simp)
          next msg hmsg =>
            have hp : (u, msg) = p := Option.some_inj.mp (Except.ok.inj h)
            refine ⟨by rw [← hp], ?_, dl, od, rfl, hod, ?_⟩
            · intro hyp
              exact hw (by rw [hyp]; rfl)
            · intro hyp
              exact hemp (by rw [hyp]; rfl)

theorem runUrls_mem (env : Env) (n : Int) (urls : List Json) (p : Json × Json)
    (h : p ∈ (runUrls env n urls).1) :
    ∃ u, u ∈ urls ∧ processUrl env n u = .ok (some p) := by
  induction urls with
  | nil => exact absurd h (by simp [runUrls])
  | cons u rest ih =>
    cases hpu : processUrl env n u with
    | ok o =>
      cases o with
      | some p0 =>
        simp only [runUrls, hpu] at h
        rcases List.mem_cons.mp h with hp | hp
        · exact ⟨u, List.mem_cons_self u rest, by rw [hpu, hp]⟩
        · rcases ih hp with ⟨u', hu', hpu'⟩
          exact ⟨u', List.mem_cons_of_mem u hu', hpu'⟩
      | none =>
        simp only [runUrls, hpu] at h
        rcases ih h with ⟨u', hu', hpu'⟩
        exact ⟨u', List.mem_cons_of_mem u hu', hpu'⟩
    | error e =>
      simp only [runUrls, hpu] at h
      exact absurd h (by simp)

theorem mainRun_mem (env : Env) (n : Int) (p : Json × Json)
    (h : p ∈ (mainRun env n).1) :
    ∃ u, processUrl env n u = .ok (some p) := by
  unfold mainRun at h
  cases hpl : get_json env.pageListFile with
  | obj fs =>
    rw [hpl] at h
    dsimp only at h
    cases hlp : lookupKey fs "pages" with
    | some pv =>
      rw [hlp] at h
      dsimp only at h
      cases hit : pyIterate pv with
      | ok urls =>
        rw [hit] at h
        dsimp only at h
        rcases runUrls_mem env n urls p h with ⟨u, _, hu⟩
        exact ⟨u, hu⟩
      | error e => rw [hit] at h; exact absurd h (by simp)
    | none => rw [hlp] at h; exact absurd h (by simp)
  | null => rw [hpl] at h; exact absurd h (by simp)
  | bool b => rw [hpl] at h; exact absurd h (by simp)
  | num m => rw [hpl] at h; exact absurd h (by simp)
  | str s => rw [hpl] at h; exact absurd h (by simp)
  | arr xs => rw [hpl] at h; exact absurd h (by simp)

/-- Claim C8: in every run, a webhook POST is recorded for an inventory URL
only if the Overdue Selector returned a nonempty list for that URL's
fetched payload and the configured webhook URL is nonempty; and an URL
whose selector output is empty, or any URL when no webhook is configured
(and the selector completed), is skipped silently — `processUrl` yields
neither a POST nor an error, so the run continues. -/
theorem c8_notification_guard (env : Env) (n : Int) :
    (∀ p : Json × Json, p ∈ (mainRun env n).1 →
      env.webhookUrl ≠ "" ∧ ∃ dl od,
        get_doc_list (env.fetch p.1) = some dl ∧
        get_out_of_date_docs env.now n dl = .ok od ∧ od ≠ []) ∧
    (∀ u dl, get_doc_list (env.fetch u) = some dl →
      get_out_of_date_docs env.now n dl = .ok [] →
      processUrl env n u = .ok none) ∧
    (env.webhookUrl = "" → ∀ u dl od, get_doc_list (env.fetch u) = some dl →
      get_out_of_date_docs env.now n dl = .ok od →
      processUrl env n u = .ok none) := by
  refine ⟨?_, ?_, ?_⟩
  · intro p hp
    rcases mainRun_mem env n p hp with ⟨u, hu⟩
    rcases processUrl_post_inv env n u p hu with ⟨hpu, hw, dl, od, hdl, hod, hne⟩
    exact ⟨hw, dl, od, by rw [hpu]; exact hdl, hod, hne⟩
  · intro u dl hdl hod
    unfold processUrl
    rw [hdl]
    dsimp only
    rw [hod]
    rfl
  · intro hw u dl od hdl hod
    unfold processUrl
    rw [hdl]
    dsimp only
    rw [hod]
    dsimp only
    by_cases hemp : od.isEmpty
    · rw [if_pos hemp]
    · rw [if_neg hemp, if_pos (by rw [hw]; rfl)]

/-- A concrete environment with no webhook configured and a fetch that
returns one record not yet due (run ordinal 737420, review date ordinal
737425). -/
def envQuiet : Env where
  maxDocsEnv := some "10"
  pageListFile := .ok (Json.obj [("pages", Json.arr [Json.str "http://a.test/inv"])])
  templateFile := .ok tmplC
  webhookUrl := ""
  fetch := fun _ => HttpResult.resp 200 (.ok (Json.arr [Json.obj recGood]))
  post := fun _ => HttpResult.resp 200 (.ok Json.null)
  now := 737420

/-- Witness for C8: the concrete URL with an empty selector output is
skipped without a POST and without an error. -/
theorem c8_notification_guard_witness :
    processUrl envQuiet 10 (Json.str "http://a.test/inv") = .ok none :=
  (c8_notification_guard envQuiet 10).2.1 (Json.str "http://a.test/inv")
    (Json.arr [Json.obj recGood]) rfl rfl

end TechDocs
